import Mathlib

/-!
Shallow embedding of `src/emu/src/cpu/arm/alu_instruction.rs` (the ALU
decode / barrel-shifter / PSR-transfer core of the clementine emulator),
together with theorems settling the frozen claims about it.

Machine integers (`u32`) are embedded as `Nat` with explicit `% 2 ^ 32`
wherever the Rust code narrows a wide accumulator back to 32 bits; `i32`
arithmetic-shift is embedded through an explicit two's-complement
interpretation (`toI32` / `ofI32`).
-/

set_option maxHeartbeats 1000000

namespace Clementine

/-- Modelled from the spec: `Bits::get_bit` from `crate::bitwise` (its source
file is outside this repository snapshot) — bit `i` of `v`. -/
def get_bit (v i : Nat) : Bool := Nat.testBit v i

/-- Modelled from the spec: `Bits::get_bits` from `crate::bitwise` (its source
file is outside this repository snapshot) — the inclusive bit range
`lo..=hi` of `v`, as a number. -/
def get_bits (v lo hi : Nat) : Nat := (v >>> lo) % 2 ^ (hi - lo + 1)

/-- Modelled from the spec: `crate::cpu::flags::ShiftKind` (its source file is
outside this repository snapshot) — the four barrel-shifter kinds
LogicalLeft / LogicalRight / ArithmeticRight / RotateRight. -/
inductive ShiftKind
  | Lsl
  | Lsr
  | Asr
  | Ror
deriving DecidableEq

/-- `ArmModeAluInstr`: the 16 ALU mnemonics, discriminants 0x0..0xF. -/
inductive ArmModeAluInstr
  | And
  | Eor
  | Sub
  | Rsb
  | Add
  | Adc
  | Sbc
  | Rsc
  | Tst
  | Teq
  | Cmp
  | Cmn
  | Orr
  | Mov
  | Bic
  | Mvn
deriving DecidableEq, Fintype

/-- `AIKind`: logical vs arithmetic instruction family. -/
inductive AIKind
  | Logical
  | Arithmetic
deriving DecidableEq

/-- `Kind::kind for ArmModeAluInstr`. -/
def ArmModeAluInstr.kind : ArmModeAluInstr → AIKind
  | .And | .Eor | .Tst | .Teq | .Orr | .Mov | .Bic | .Mvn => .Logical
  | .Sub | .Rsb | .Add | .Adc | .Sbc | .Rsc | .Cmp | .Cmn => .Arithmetic

/-- `impl From<u32> for ArmModeAluInstr`; the Rust `_ => unreachable!()` arm
(a fatal invariant violation for opcodes above 0xF) is embedded as `none`. -/
def ArmModeAluInstr.fromU32 (alu_op_code : Nat) : Option ArmModeAluInstr :=
  match alu_op_code with
  | 0x0 => some .And
  | 0x1 => some .Eor
  | 0x2 => some .Sub
  | 0x3 => some .Rsb
  | 0x4 => some .Add
  | 0x5 => some .Adc
  | 0x6 => some .Sbc
  | 0x7 => some .Rsc
  | 0x8 => some .Tst
  | 0x9 => some .Teq
  | 0xA => some .Cmp
  | 0xB => some .Cmn
  | 0xC => some .Orr
  | 0xD => some .Mov
  | 0xE => some .Bic
  | 0xF => some .Mvn
  | _ => none

/-- `ArithmeticOpResult`: result value plus the five condition outputs. -/
structure ArithmeticOpResult where
  result : Nat
  carry : Bool
  overflow : Bool
  sign : Bool
  zero : Bool
deriving DecidableEq

/-- The derived `Default` of `ArithmeticOpResult` (`..Default::default()`). -/
def ArithmeticOpResult.default : ArithmeticOpResult :=
  { result := 0, carry := false, overflow := false, sign := false, zero := false }

/-- Models the `u32::rotate_right` intrinsic used at line 217 of the source:
`(self >> (n % 32)) | (self << (32 - n % 32))`, the low 32 bits. -/
def rotate_right32 (v n : Nat) : Nat :=
  (v >>> (n % 32)) ||| ((v <<< (32 - n % 32)) % 2 ^ 32)

/-- Two's-complement reading of a `u32` bit pattern as an `i32` value. -/
def toI32 (v : Nat) : Int := if v < 2 ^ 31 then (v : Int) else (v : Int) - 2 ^ 32

/-- The `u32` bit pattern of an `i32` value (`as u32`). -/
def ofI32 (x : Int) : Nat := (x % 2 ^ 32).toNat

/-- Models `(rm as i32) >> n as u32`: arithmetic (sign-extending, i.e. floor)
shift right of the two's-complement value. -/
def asr32 (v n : Nat) : Nat := ofI32 (Int.fdiv (toI32 v) (2 ^ n))

/-- The barrel shifter `shift(kind, shift_amount, rm, carry)`. The Rust
`1..=32` / `1..=31` range arms become explicit bound tests; the final
`_ => unreachable!()` arm of the ROR match (amounts the normalisation can
never produce) is embedded as the default record. -/
def shift (kind : ShiftKind) (shift_amount rm : Nat) (carry : Bool) : ArithmeticOpResult :=
  match kind with
  | .Lsl =>
    if shift_amount = 0 then
      -- LSL#0: No shift performed, ie. directly value=Rm, the C flag is NOT affected.
      { ArithmeticOpResult.default with result := rm, carry := carry }
    else if shift_amount ≤ 32 then
      -- LSL#1..32: normal left shift, done on a u64 accumulator then narrowed.
      { ArithmeticOpResult.default with
        result := (rm <<< shift_amount) % 2 ^ 32
        carry := get_bit rm (32 - shift_amount) }
    else
      -- LSL#33...: result is 0 and carry is 0.
      { ArithmeticOpResult.default with carry := false }
  | .Lsr =>
    if shift_amount = 0 then
      -- LSR#0 encodes LSR#32: 0 result, carry = bit 31 of rm.
      { ArithmeticOpResult.default with result := 0, carry := get_bit rm 31 }
    else if shift_amount ≤ 32 then
      -- LSR#1..32: normal right shift on a u64 accumulator then narrowed.
      { ArithmeticOpResult.default with
        result := (rm >>> shift_amount) % 2 ^ 32
        carry := get_bit rm (shift_amount - 1) }
    else
      { ArithmeticOpResult.default with result := 0, carry := false }
  | .Asr =>
    if 1 ≤ shift_amount ∧ shift_amount ≤ 31 then
      { ArithmeticOpResult.default with
        result := asr32 rm shift_amount
        carry := get_bit rm (shift_amount - 1) }
    else
      { ArithmeticOpResult.default with
        result := asr32 rm 31
        carry := get_bit rm 31 }
  | .Ror =>
    -- ROR by n > 32 equals ROR by n-32 repeatedly: reduce modulo 32,
    -- a reduction of 0 standing for ROR#32.
    let new_shift_amount :=
      if shift_amount > 32 then
        if shift_amount % 32 = 0 then 32 else shift_amount % 32
      else shift_amount
    if new_shift_amount = 0 then
      -- ROR#0 encodes RRX: append C on the left and shift right by 1.
      { ArithmeticOpResult.default with
        result := (rm >>> 1) ||| ((if carry then 1 else 0) <<< 31)
        carry := get_bit rm 0 }
    else if new_shift_amount ≤ 31 then
      -- ROR#1..31: normal rotate right.
      { ArithmeticOpResult.default with
        result := rotate_right32 rm new_shift_amount
        carry := get_bit rm (new_shift_amount - 1) }
    else if new_shift_amount = 32 then
      -- ROR#32: rm unchanged, carry = bit 31 of rm.
      { ArithmeticOpResult.default with result := rm, carry := get_bit rm 31 }
    else
      ArithmeticOpResult.default

/-- `ShiftOperator`: source of a shift amount — immediate constant or register. -/
inductive ShiftOperator
  | Immediate (v : Nat)
  | Register (r : Nat)
deriving DecidableEq

/-- `AluSecondOperandInfo`: the decoded second ALU operand. -/
inductive AluSecondOperandInfo
  | Register (shift_op : ShiftOperator) (shift_kind : ShiftKind) (register : Nat)
  | Immediate (base shift : Nat)
deriving DecidableEq

/-- `PsrOpKind`: MRS / MSR-register / MSR-flags PSR transfer operations. -/
inductive PsrOpKind
  | Mrs (destination_register : Nat)
  | Msr (source_register : Nat)
  | MsrFlg (operand : AluSecondOperandInfo)
deriving DecidableEq

/-- The first condition of `impl From<u32> for PsrOpKind` (the MRS shape). -/
def mrs_pattern (op_code : Nat) : Bool :=
  get_bits op_code 23 27 == 0b00010 &&
  get_bits op_code 16 21 == 0b001111 &&
  get_bits op_code 0 11 == 0

/-- The second condition of `impl From<u32> for PsrOpKind` (the MSR-register
shape). -/
def msr_pattern (op_code : Nat) : Bool :=
  get_bits op_code 23 27 == 0b00010 &&
  get_bits op_code 12 21 == 0b1010011111 &&
  get_bits op_code 4 11 == 0

/-- The third condition of `impl From<u32> for PsrOpKind` (the MSR-flags
shape). -/
def msr_flg_pattern (op_code : Nat) : Bool :=
  get_bits op_code 26 27 == 0b00 &&
  get_bits op_code 23 24 == 0b10 &&
  get_bits op_code 12 21 == 0b1010001111

/-- Outcome of `impl From<u32> for PsrOpKind`: either a decoded PSR operation
or the `unreachable!()` panic of the final `else` branch. -/
inductive PsrDecodeResult
  | ok (k : PsrOpKind)
  | unreachable
deriving DecidableEq

/-- `impl From<u32> for PsrOpKind`. A word matching none of the three
patterns falls into the Rust `unreachable!()` branch, embedded as
`PsrDecodeResult.unreachable`. -/
def PsrOpKind.fromU32 (op_code : Nat) : PsrDecodeResult :=
  if mrs_pattern op_code then
    .ok (.Mrs (get_bits op_code 12 15))
  else if msr_pattern op_code then
    .ok (.Msr (get_bits op_code 0 3))
  else if msr_flg_pattern op_code then
    .ok (.MsrFlg
      (if get_bit op_code 25 then
        .Immediate (get_bits op_code 0 7) (get_bits op_code 8 11 * 2)
      else
        .Register (.Immediate 0) .Lsl (get_bits op_code 0 3)))
  else
    .unreachable

/-- Modelled from the spec: the decoder the spec describes in §4.4, returning
`none` ("not a PSR transfer") when no pattern matches instead of failing.
The three match arms follow the source; only the no-match outcome follows
the spec's words. -/
def try_decode_psr_spec (op_code : Nat) : Option PsrOpKind :=
  match PsrOpKind.fromU32 op_code with
  | .ok k => some k
  | .unreachable => none

/-- Modelled from the spec: the 2-bit shift-kind field decoding used by the
full §4.3 second-operand rule (the field is decoded outside this file). -/
def shift_kind_of_bits (b : Nat) : ShiftKind :=
  if b = 0 then .Lsl else if b = 1 then .Lsr else if b = 2 then .Asr else .Ror

/-- Modelled from the spec: the full §4.3 Second-Operand Decoder rule, with
bit 25 as the immediate-flag discriminator. Claim C2 asserts the MsrFlg
branch of the source decoder follows this rule. -/
def decode_second_operand_spec (word : Nat) : AluSecondOperandInfo :=
  if get_bit word 25 then
    .Immediate (get_bits word 0 7) (get_bits word 8 11 * 2)
  else
    .Register
      (if get_bit word 4 then .Register (get_bits word 8 11)
       else .Immediate (get_bits word 7 11))
      (shift_kind_of_bits (get_bits word 5 6))
      (get_bits word 0 3)

/-- Modelled from the spec: the textual names of the shift kinds (the
`Display` impl of `ShiftKind` lives outside this repository snapshot; the
spec names the kinds LSL/LSR/ASR/ROR throughout). -/
def ShiftKind.display : ShiftKind → String
  | .Lsl => "LSL"
  | .Lsr => "LSR"
  | .Asr => "ASR"
  | .Ror => "ROR"

/-- `impl Display for ShiftOperator`. -/
def ShiftOperator.display : ShiftOperator → String
  | .Immediate value => "#" ++ toString value
  | .Register register => "R" ++ toString register

/-- `impl Display for AluSecondOperandInfo`. The Rust early return for an
immediate shift amount of 0 becomes the `.Immediate 0` match arm. -/
def AluSecondOperandInfo.display : AluSecondOperandInfo → String
  | .Register shift_op shift_kind register =>
    match shift_op with
    | .Immediate sh =>
      -- the Rust `if let ShiftOperator::Immediate(shift) = shift_op` early return
      if sh = 0 then
        if shift_kind = .Lsl then
          "R" ++ toString register
        else if shift_kind = .Ror then
          "R" ++ toString register ++ ", RRX"
        else
          "R" ++ toString register ++ ", " ++ shift_kind.display ++ " #32"
      else
        "R" ++ toString register ++ ", " ++ shift_kind.display ++ " " ++ shift_op.display
    | .Register _ =>
      "R" ++ toString register ++ ", " ++ shift_kind.display ++ " " ++ shift_op.display
  | .Immediate base sh => "#" ++ toString (rotate_right32 base sh)

/-- A shift-engine output populating only `result` and `carry`, all other
condition fields at their default `false`. Used to state the shift-regime
claims. -/
def shift_result (r : Nat) (cy : Bool) : ArithmeticOpResult :=
  { result := r, carry := cy, overflow := false, sign := false, zero := false }

/-- Number of PSR patterns an instruction word matches; claim C8 says this
never exceeds 1. -/
def psr_match_count (w : Nat) : Nat :=
  (if mrs_pattern w then 1 else 0) +
  (if msr_pattern w then 1 else 0) +
  (if msr_flg_pattern w then 1 else 0)

/-! ## Helper lemmas -/

theorem shiftRight_sixteen_eq (w : Nat) : w >>> 16 = (w >>> 12) / 16 := by
  have h : w >>> 16 = (w >>> 12) >>> 4 := by
    rw [← Nat.shiftRight_add]
  rw [h, Nat.shiftRight_eq_div_pow]

theorem not_mrs_and_msr (w : Nat) :
    ¬(mrs_pattern w = true ∧ msr_pattern w = true) := by
  rintro ⟨h1, h2⟩
  simp only [mrs_pattern, msr_pattern, get_bits, Bool.and_eq_true, beq_iff_eq] at h1 h2
  obtain ⟨⟨-, h16⟩, -⟩ := h1
  obtain ⟨⟨-, h12⟩, -⟩ := h2
  rw [shiftRight_sixteen_eq] at h16
  norm_num at h16 h12
  omega

theorem not_mrs_and_flg (w : Nat) :
    ¬(mrs_pattern w = true ∧ msr_flg_pattern w = true) := by
  rintro ⟨h1, h3⟩
  simp only [mrs_pattern, msr_flg_pattern, get_bits, Bool.and_eq_true, beq_iff_eq] at h1 h3
  obtain ⟨⟨-, h16⟩, -⟩ := h1
  obtain ⟨-, h12⟩ := h3
  rw [shiftRight_sixteen_eq] at h16
  norm_num at h16 h12
  omega

theorem not_msr_and_flg (w : Nat) :
    ¬(msr_pattern w = true ∧ msr_flg_pattern w = true) := by
  rintro ⟨h2, h3⟩
  simp only [msr_pattern, msr_flg_pattern, get_bits, Bool.and_eq_true, beq_iff_eq] at h2 h3
  obtain ⟨⟨-, h12⟩, -⟩ := h2
  obtain ⟨-, h12'⟩ := h3
  norm_num at h12 h12'
  omega

theorem mrs_false_of_flg (w : Nat) (h : msr_flg_pattern w = true) :
    mrs_pattern w = false := by
  rcases Bool.eq_false_or_eq_true (mrs_pattern w) with h' | h'
  · exact absurd ⟨h', h⟩ (not_mrs_and_flg w)
  · exact h'

theorem msr_false_of_flg (w : Nat) (h : msr_flg_pattern w = true) :
    msr_pattern w = false := by
  rcases Bool.eq_false_or_eq_true (msr_pattern w) with h' | h'
  · exact absurd ⟨h', h⟩ (not_msr_and_flg w)
  · exact h'

theorem lor_two_pow_add {b k : Nat} (hb : b < 2 ^ k) : b ||| 2 ^ k = b + 2 ^ k := by
  have h := Nat.mul_add_lt_is_or hb 1
  rw [Nat.mul_one] at h
  rw [Nat.lor_comm, ← h, Nat.add_comm]

theorem rotate_right32_eq (v n : Nat) (hv : v < 2 ^ 32) (h1 : 1 ≤ n) (h2 : n ≤ 31) :
    rotate_right32 v n = v % 2 ^ n * 2 ^ (32 - n) + v / 2 ^ n := by
  have hn : n % 32 = n := Nat.mod_eq_of_lt (by omega)
  unfold rotate_right32
  rw [hn, Nat.shiftLeft_eq, Nat.shiftRight_eq_div_pow]
  have hsplit : (2 : Nat) ^ 32 = 2 ^ n * 2 ^ (32 - n) := by
    rw [← pow_add]; congr 1; omega
  have hmod : v * 2 ^ (32 - n) % 2 ^ 32 = v % 2 ^ n * 2 ^ (32 - n) := by
    rw [hsplit, Nat.mul_mod_mul_right]
  rw [hmod]
  have hdiv : v / 2 ^ n < 2 ^ (32 - n) := by
    apply Nat.div_lt_of_lt_mul
    rw [← hsplit]; exact hv
  rw [Nat.lor_comm, Nat.mul_comm (v % 2 ^ n) (2 ^ (32 - n))]
  exact (Nat.mul_add_lt_is_or hdiv (v % 2 ^ n)).symm

theorem rrx_result_eq (v : Nat) (hv : v < 2 ^ 32) (c : Bool) :
    (v >>> 1) ||| ((if c then 1 else 0) <<< 31) =
      v / 2 + (if c then 2 ^ 31 else 0) := by
  have hd : v / 2 < 2 ^ 31 := by
    apply Nat.div_lt_of_lt_mul
    calc v < 2 ^ 32 := hv
    _ = 2 * 2 ^ 31 := by norm_num
  cases c
  · simp [Nat.shiftRight_eq_div_pow]
  · simp only [if_pos, Nat.shiftRight_eq_div_pow, Nat.shiftLeft_eq, Nat.one_mul, pow_one]
    exact lor_two_pow_add hd

theorem testBit_31_of_lt {v : Nat} (h : v < 2 ^ 31) : Nat.testBit v 31 = false :=
  Nat.testBit_lt_two_pow (lt_of_lt_of_le h (by norm_num))

theorem testBit_31_of_ge {v : Nat} (h1 : 2 ^ 31 ≤ v) (h2 : v < 2 ^ 32) :
    Nat.testBit v 31 = true := by
  rw [Nat.testBit_to_div_mod, decide_eq_true_eq]
  omega

theorem sub_emod_toNat (d M : Nat) (hdM : d < M) (hM : M ≤ 2 ^ 32) :
    (((d : Int) - (M : Int)) % 2 ^ 32).toNat = d + (2 ^ 32 - M) := by
  have hA : (0 : Int) ≤ (d : Int) - M + 2 ^ 32 := by omega
  have hB : (d : Int) - M + 2 ^ 32 < 2 ^ 32 := by omega
  have hshift : ((d : Int) - M) % 2 ^ 32 = (d : Int) - M + 2 ^ 32 :=
    calc ((d : Int) - M) % 2 ^ 32 = ((d : Int) - M + 2 ^ 32) % 2 ^ 32 :=
          Int.add_emod_self.symm
    _ = (d : Int) - M + 2 ^ 32 := Int.emod_eq_of_lt hA hB
  rw [hshift]
  omega

theorem asr32_eq (v n : Nat) (hv : v < 2 ^ 32) (hn : n ≤ 31) :
    asr32 v n = v / 2 ^ n + (if Nat.testBit v 31 then 2 ^ 32 - 2 ^ (32 - n) else 0) := by
  have hsplit : (2 : Nat) ^ 32 = 2 ^ n * 2 ^ (32 - n) := by
    rw [← pow_add]; congr 1; omega
  have hMle : (2 : Nat) ^ (32 - n) ≤ 2 ^ 32 :=
    Nat.pow_le_pow_right (by norm_num) (by omega)
  have hcast : ((2 : Int) ^ n) = ((2 ^ n : Nat) : Int) := by push_cast; ring
  have hvd : (↑v / (2 : Int) ^ n) = ((v / 2 ^ n : Nat) : Int) := by
    rw [hcast, ← Int.ofNat_ediv]
  unfold asr32 ofI32 toI32
  rw [Int.fdiv_eq_ediv _ (by positivity)]
  by_cases hs : v < 2 ^ 31
  · rw [if_pos hs, testBit_31_of_lt hs, if_neg (by simp), hvd]
    have hdlt : ((v / 2 ^ n : Nat) : Int) < 2 ^ 32 := by
      have h' : v / 2 ^ n < 2 ^ 32 := lt_of_le_of_lt (Nat.div_le_self _ _) hv
      exact_mod_cast h'
    rw [Int.emod_eq_of_lt (by positivity) hdlt, Int.toNat_ofNat]
    omega
  · have hs' : 2 ^ 31 ≤ v := le_of_not_lt hs
    rw [if_neg hs, testBit_31_of_ge hs' hv, if_pos rfl]
    have hsplitZ : ((2 : Int) ^ 32) = ((2 ^ (32 - n) : Nat) : Int) * (2 : Int) ^ n := by
      have h' : ((2 : Nat) ^ 32) = 2 ^ (32 - n) * 2 ^ n := by
        rw [← pow_add]; congr 1; omega
      exact_mod_cast h'
    have key : ((v : Int) - 2 ^ 32) / (2 : Int) ^ n =
        ((v / 2 ^ n : Nat) : Int) - ((2 ^ (32 - n) : Nat) : Int) := by
      have hrw : (v : Int) - 2 ^ 32 =
          (v : Int) + (-((2 ^ (32 - n) : Nat) : Int)) * (2 : Int) ^ n := by
        rw [hsplitZ]; ring
      rw [hrw, Int.add_mul_ediv_right _ _ (by positivity), hvd]
      ring
    rw [key]
    have hb : v / 2 ^ n < 2 ^ (32 - n) := by
      apply Nat.div_lt_of_lt_mul
      rw [← hsplit]; exact hv
    exact sub_emod_toNat (v / 2 ^ n) (2 ^ (32 - n)) hb hMle

theorem asr32_31_eq (v : Nat) (hv : v < 2 ^ 32) :
    asr32 v 31 = if Nat.testBit v 31 then 2 ^ 32 - 1 else 0 := by
  rw [asr32_eq v 31 hv le_rfl]
  by_cases hs : v < 2 ^ 31
  · rw [testBit_31_of_lt hs]
    norm_num
    omega
  · have hs' : 2 ^ 31 ≤ v := le_of_not_lt hs
    rw [testBit_31_of_ge hs' hv]
    norm_num
    omega

theorem space_hash_append (x : String) : " " ++ ("#" ++ x) = " #" ++ x := by
  have h : (" " : String) ++ "#" = " #" := by decide
  rw [← String.append_assoc, h]

theorem space_R_append (x : String) : " " ++ ("R" ++ x) = " R" ++ x := by
  have h : (" " : String) ++ "R" = " R" := by decide
  rw [← String.append_assoc, h]

/-! ## Claim theorems -/

/-- C8: for every 32-bit instruction word, at most one of the three PSR
bit-pattern predicates (Mrs, Msr-register, MsrFlg) holds — the patterns are
mutually exclusive, so the decoder's result does not depend on the priority
order in which they are tested. -/
theorem psr_patterns_mutually_exclusive (w : Nat) : psr_match_count w ≤ 1 := by
  unfold psr_match_count
  rcases Bool.eq_false_or_eq_true (mrs_pattern w) with h1 | h1
  · rcases Bool.eq_false_or_eq_true (msr_pattern w) with h2 | h2
    · exact absurd ⟨h1, h2⟩ (not_mrs_and_msr w)
    · rcases Bool.eq_false_or_eq_true (msr_flg_pattern w) with h3 | h3
      · exact absurd ⟨h1, h3⟩ (not_mrs_and_flg w)
      · simp [h1, h2, h3]
  · rcases Bool.eq_false_or_eq_true (msr_pattern w) with h2 | h2
    · rcases Bool.eq_false_or_eq_true (msr_flg_pattern w) with h3 | h3
      · exact absurd ⟨h2, h3⟩ (not_msr_and_flg w)
      · simp [h1, h2, h3]
    · rcases Bool.eq_false_or_eq_true (msr_flg_pattern w) with h3 | h3 <;>
        simp [h1, h2, h3]

/-- C1 counterexample: the instruction word 0 matches none of the three PSR
patterns, yet the decoder does not return a "not a PSR transfer" (empty
`Option`) result — it reaches the Rust `unreachable!()` panic, embedded as
`PsrDecodeResult.unreachable` (and mirrored as `none` only by the
spec-modelled wrapper `try_decode_psr_spec`). -/
theorem psr_decoder_no_match_cex :
    mrs_pattern 0 = false ∧ msr_pattern 0 = false ∧ msr_flg_pattern 0 = false ∧
    PsrOpKind.fromU32 0 = PsrDecodeResult.unreachable := by decide

/-- C1 (amended): for every instruction word matching none of the three PSR
patterns, the decoder falls into the `unreachable!()` branch (a fatal panic,
embedded as `PsrDecodeResult.unreachable`) rather than returning an empty
`Option`; it never produces a PSR variant for such a word. -/
theorem psr_decoder_no_match_is_unreachable (w : Nat)
    (h1 : mrs_pattern w = false) (h2 : msr_pattern w = false)
    (h3 : msr_flg_pattern w = false) :
    PsrOpKind.fromU32 w = PsrDecodeResult.unreachable := by
  simp [PsrOpKind.fromU32, h1, h2, h3]

/-- C1 witness: the amended theorem applied at the concrete word 0. -/
theorem psr_decoder_no_match_is_unreachable_witness :
    PsrOpKind.fromU32 0 = PsrDecodeResult.unreachable :=
  psr_decoder_no_match_is_unreachable 0 (by decide) (by decide) (by decide)

/-- C2 counterexample: the word 0x128F1E5 matches the MsrFlg pattern with
bit 25 clear, bit 4 clear, shift-kind field (bits 5-6) = 0b11 (ROR) and
shift amount field (bits 7-11) = 3; the full §4.3 rule would decode the
operand as Register{Immediate(3), Ror, 5}, but the code hard-codes
Register{Immediate(0), Lsl, 5}. -/
theorem msr_flg_operand_cex :
    msr_flg_pattern 0x128F1E5 = true ∧
    get_bit 0x128F1E5 25 = false ∧
    PsrOpKind.fromU32 0x128F1E5 =
      PsrDecodeResult.ok (.MsrFlg (.Register (.Immediate 0) .Lsl 5)) ∧
    decode_second_operand_spec 0x128F1E5 =
      AluSecondOperandInfo.Register (.Immediate 3) .Ror 5 ∧
    AluSecondOperandInfo.Register (ShiftOperator.Immediate 0) ShiftKind.Lsl 5 ≠
      AluSecondOperandInfo.Register (.Immediate 3) .Ror 5 := by decide

/-- C2 (amended): for every word matching the MsrFlg pattern, if bit 25 is
set the operand follows the immediate half of the §4.3 rule
(Immediate{base = bits 0-7, shift = (bits 8-11) * 2}); if bit 25 is clear the
operand is the fixed Register{shift-operator Immediate(0), shift-kind LSL,
register = bits 0-3}, regardless of bits 4-11 (the code does not apply the
register half of the §4.3 rule). -/
theorem msr_flg_operand_decode_amended (w : Nat) (h : msr_flg_pattern w = true) :
    (get_bit w 25 = true →
      PsrOpKind.fromU32 w =
        PsrDecodeResult.ok (.MsrFlg (decode_second_operand_spec w))) ∧
    (get_bit w 25 = false →
      PsrOpKind.fromU32 w =
        PsrDecodeResult.ok (.MsrFlg (.Register (.Immediate 0) .Lsl (get_bits w 0 3)))) := by
  have hmrs := mrs_false_of_flg w h
  have hmsr := msr_false_of_flg w h
  constructor <;> intro h25 <;>
    simp [PsrOpKind.fromU32, decode_second_operand_spec, hmrs, hmsr, h, h25]

/-- C2 witness: the amended theorem applied at the concrete MsrFlg word
0x328F1FF (bit 25 set, base = 0xFF, rotate field = 1). -/
theorem msr_flg_operand_decode_amended_witness :
    PsrOpKind.fromU32 0x328F1FF =
      PsrDecodeResult.ok (.MsrFlg (decode_second_operand_spec 0x328F1FF)) :=
  (msr_flg_operand_decode_amended 0x328F1FF (by decide)).1 (by decide)

/-- C7: the opcode classifier is a bijection from opcodes 0x0..0xF onto the
16 mnemonics in the fixed order AND=0x0 .. MVN=0xF, and the family function
maps AND, EOR, TST, TEQ, ORR, MOV, BIC, MVN to Logical and SUB, RSB, ADD,
ADC, SBC, RSC, CMP, CMN to Arithmetic; in particular opcode 0x9 yields TEQ
(Logical) and opcode 0x2 yields SUB (Arithmetic). -/
theorem alu_opcode_classifier_bijection :
    (∀ i j : Fin 16,
      ArmModeAluInstr.fromU32 i.val = ArmModeAluInstr.fromU32 j.val → i = j) ∧
    (∀ m : ArmModeAluInstr, ∃ i : Fin 16, ArmModeAluInstr.fromU32 i.val = some m) ∧
    (ArmModeAluInstr.fromU32 0x0 = some .And) ∧
    (ArmModeAluInstr.fromU32 0x1 = some .Eor) ∧
    (ArmModeAluInstr.fromU32 0x2 = some .Sub) ∧
    (ArmModeAluInstr.fromU32 0x3 = some .Rsb) ∧
    (ArmModeAluInstr.fromU32 0x4 = some .Add) ∧
    (ArmModeAluInstr.fromU32 0x5 = some .Adc) ∧
    (ArmModeAluInstr.fromU32 0x6 = some .Sbc) ∧
    (ArmModeAluInstr.fromU32 0x7 = some .Rsc) ∧
    (ArmModeAluInstr.fromU32 0x8 = some .Tst) ∧
    (ArmModeAluInstr.fromU32 0x9 = some .Teq) ∧
    (ArmModeAluInstr.fromU32 0xA = some .Cmp) ∧
    (ArmModeAluInstr.fromU32 0xB = some .Cmn) ∧
    (ArmModeAluInstr.fromU32 0xC = some .Orr) ∧
    (ArmModeAluInstr.fromU32 0xD = some .Mov) ∧
    (ArmModeAluInstr.fromU32 0xE = some .Bic) ∧
    (ArmModeAluInstr.fromU32 0xF = some .Mvn) ∧
    (ArmModeAluInstr.And.kind = .Logical) ∧
    (ArmModeAluInstr.Eor.kind = .Logical) ∧
    (ArmModeAluInstr.Tst.kind = .Logical) ∧
    (ArmModeAluInstr.Teq.kind = .Logical) ∧
    (ArmModeAluInstr.Orr.kind = .Logical) ∧
    (ArmModeAluInstr.Mov.kind = .Logical) ∧
    (ArmModeAluInstr.Bic.kind = .Logical) ∧
    (ArmModeAluInstr.Mvn.kind = .Logical) ∧
    (ArmModeAluInstr.Sub.kind = .Arithmetic) ∧
    (ArmModeAluInstr.Rsb.kind = .Arithmetic) ∧
    (ArmModeAluInstr.Add.kind = .Arithmetic) ∧
    (ArmModeAluInstr.Adc.kind = .Arithmetic) ∧
    (ArmModeAluInstr.Sbc.kind = .Arithmetic) ∧
    (ArmModeAluInstr.Rsc.kind = .Arithmetic) ∧
    (ArmModeAluInstr.Cmp.kind = .Arithmetic) ∧
    (ArmModeAluInstr.Cmn.kind = .Arithmetic) := by decide

/-- C7 witness: the injectivity half of the bijection applied at the
concrete opcode 0x9. -/
theorem alu_opcode_classifier_bijection_witness :
    (⟨9, by decide⟩ : Fin 16) = ⟨9, by decide⟩ :=
  alu_opcode_classifier_bijection.1 ⟨9, by decide⟩ ⟨9, by decide⟩ rfl

/-- C10: for every shift kind, amount, input value and carry-in, the raw
shift populates only `result` and `carry`; the `overflow`, `sign` and `zero`
fields of the returned record are always `false`. -/
theorem shift_only_populates_result_and_carry
    (kind : ShiftKind) (shift_amount rm : Nat) (c : Bool) :
    (shift kind shift_amount rm c).overflow = false ∧
    (shift kind shift_amount rm c).sign = false ∧
    (shift kind shift_amount rm c).zero = false := by
  refine ⟨?_, ?_, ?_⟩ <;>
    · cases kind <;> simp only [shift] <;> repeat' split
      all_goals rfl

/-- C4: the LSL regimes — amount 0 leaves the value and the carry unchanged;
amounts 1..32 shift in a wide accumulator and set carry to bit (32-amount)
of the value; amounts above 32 give 0 with carry false. -/
theorem lsl_shift_regimes (rm : Nat) (hrm : rm < 2 ^ 32) (c : Bool) :
    (shift .Lsl 0 rm c = shift_result rm c) ∧
    (∀ n, 1 ≤ n → n ≤ 32 → shift .Lsl n rm c =
      shift_result (rm * 2 ^ n % 2 ^ 32) (Nat.testBit rm (32 - n))) ∧
    (∀ n, 32 < n → shift .Lsl n rm c = shift_result 0 false) := by
  refine ⟨?_, ?_, ?_⟩
  · simp [shift, shift_result, ArithmeticOpResult.default]
  · intro n h1 h2
    have hn0 : ¬(n = 0) := by omega
    simp [shift, hn0, h2, shift_result, ArithmeticOpResult.default, get_bit,
      Nat.shiftLeft_eq]
  · intro n h
    have h1 : ¬(n = 0) := by omega
    have h2 : ¬(n ≤ 32) := by omega
    simp [shift, h1, h2, shift_result, ArithmeticOpResult.default]

/-- C4 witness: the 1..32 regime applied at rm = 0x80000001, amount 3. -/
theorem lsl_shift_regimes_witness :
    shift .Lsl 3 0x80000001 true =
      shift_result (0x80000001 * 2 ^ 3 % 2 ^ 32) (Nat.testBit 0x80000001 29) :=
  (lsl_shift_regimes 0x80000001 (by decide) true).2.1 3 (by decide) (by decide)

/-- C5: the LSR regimes — amount 0 encodes LSR#32 (result 0, carry = bit 31,
not a no-op); amounts 1..32 shift right with carry = bit (amount-1) of the
value; amounts above 32 give 0 with carry false. -/
theorem lsr_shift_regimes (rm : Nat) (hrm : rm < 2 ^ 32) (c : Bool) :
    (shift .Lsr 0 rm c = shift_result 0 (Nat.testBit rm 31)) ∧
    (∀ n, 1 ≤ n → n ≤ 32 → shift .Lsr n rm c =
      shift_result (rm / 2 ^ n) (Nat.testBit rm (n - 1))) ∧
    (∀ n, 32 < n → shift .Lsr n rm c = shift_result 0 false) := by
  refine ⟨?_, ?_, ?_⟩
  · simp [shift, shift_result, ArithmeticOpResult.default, get_bit]
  · intro n h1 h2
    have hn0 : ¬(n = 0) := by omega
    have hdiv : rm / 2 ^ n < 4294967296 := by
      have h' := Nat.div_le_self rm (2 ^ n)
      omega
    simp [shift, hn0, h2, shift_result, ArithmeticOpResult.default, get_bit,
      Nat.shiftRight_eq_div_pow, Nat.mod_eq_of_lt hdiv]
  · intro n h
    have h1 : ¬(n = 0) := by omega
    have h2 : ¬(n ≤ 32) := by omega
    simp [shift, h1, h2, shift_result, ArithmeticOpResult.default]

/-- C5 witness: the 1..32 regime applied at rm = 0x80000001, amount 4. -/
theorem lsr_shift_regimes_witness :
    shift .Lsr 4 0x80000001 true =
      shift_result (0x80000001 / 2 ^ 4) (Nat.testBit 0x80000001 3) :=
  (lsr_shift_regimes 0x80000001 (by decide) true).2.1 4 (by decide) (by decide)

/-- C3: the ROR regimes — amount 0 is RRX (result = value>>1 with carry-in in
bit 31, carry-out = bit 0); amounts 1..31 rotate right with carry-out =
bit (amount-1); amount 32 leaves the value unchanged with carry-out = bit 31;
amounts above 32 reduce modulo 32 first, a reduction of 0 standing for
amount 32 (not RRX) — in particular ROR by 64 equals ROR by 32. -/
theorem ror_shift_regimes (rm : Nat) (hrm : rm < 2 ^ 32) (c : Bool) :
    (shift .Ror 0 rm c =
      shift_result (rm / 2 + if c then 2 ^ 31 else 0) (Nat.testBit rm 0)) ∧
    (∀ n, 1 ≤ n → n ≤ 31 → shift .Ror n rm c =
      shift_result (rm % 2 ^ n * 2 ^ (32 - n) + rm / 2 ^ n) (Nat.testBit rm (n - 1))) ∧
    (shift .Ror 32 rm c = shift_result rm (Nat.testBit rm 31)) ∧
    (∀ n, 32 < n → shift .Ror n rm c =
      shift .Ror (if n % 32 = 0 then 32 else n % 32) rm c) ∧
    (shift .Ror 64 rm c = shift .Ror 32 rm c) := by
  refine ⟨?_, ?_, ?_, ?_, ?_⟩
  · simp [shift, shift_result, ArithmeticOpResult.default, get_bit,
      rrx_result_eq rm hrm c]
  · intro n h1 h2
    have hn0 : ¬(n = 0) := by omega
    have hngt : ¬(n > 32) := by omega
    simp [shift, hn0, h2, hngt, shift_result, ArithmeticOpResult.default, get_bit,
      rotate_right32_eq rm n hrm h1 h2]
  · simp [shift, shift_result, ArithmeticOpResult.default, get_bit]
  · intro n hn
    by_cases h0 : n % 32 = 0
    · rw [if_pos h0]
      simp [shift, hn, h0]
    · rw [if_neg h0]
      have hm31 : n % 32 ≤ 31 := by omega
      have hmgt : ¬(n % 32 > 32) := by omega
      simp [shift, hn, h0, hm31, hmgt]
  · simp [shift]

/-- C3 witness: the amount-32 regime applied at rm = 0x80000001. -/
theorem ror_shift_regimes_witness :
    shift .Ror 32 0x80000001 true = shift_result 0x80000001 (Nat.testBit 0x80000001 31) :=
  (ror_shift_regimes 0x80000001 (by decide) true).2.2.1

/-- C6: the ASR regimes — amounts 1..31 shift arithmetically (the quotient
plus the sign-extension term) with carry = bit (amount-1); amount 0 and all
amounts at least 32 give all bits equal to the sign bit (0 or 2^32 - 1) with
carry = bit 31. -/
theorem asr_shift_regimes (rm : Nat) (hrm : rm < 2 ^ 32) (c : Bool) :
    (∀ n, 1 ≤ n → n ≤ 31 → shift .Asr n rm c =
      shift_result (rm / 2 ^ n + if Nat.testBit rm 31 then 2 ^ 32 - 2 ^ (32 - n) else 0)
        (Nat.testBit rm (n - 1))) ∧
    (shift .Asr 0 rm c =
      shift_result (if Nat.testBit rm 31 then 2 ^ 32 - 1 else 0) (Nat.testBit rm 31)) ∧
    (∀ n, 32 ≤ n → shift .Asr n rm c =
      shift_result (if Nat.testBit rm 31 then 2 ^ 32 - 1 else 0) (Nat.testBit rm 31)) := by
  refine ⟨?_, ?_, ?_⟩
  · intro n h1 h2
    simp [shift, show 1 ≤ n ∧ n ≤ 31 from ⟨h1, h2⟩, shift_result,
      ArithmeticOpResult.default, get_bit, asr32_eq rm n hrm h2]
  · simp [shift, shift_result, ArithmeticOpResult.default, get_bit,
      asr32_31_eq rm hrm]
  · intro n hn
    have h1 : ¬(1 ≤ n ∧ n ≤ 31) := by omega
    simp [shift, h1, shift_result, ArithmeticOpResult.default, get_bit,
      asr32_31_eq rm hrm]

/-- C6 witness: the 1..31 regime applied at rm = 0x80000001, amount 4. -/
theorem asr_shift_regimes_witness :
    shift .Asr 4 0x80000001 false =
      shift_result
        (0x80000001 / 2 ^ 4 + if Nat.testBit 0x80000001 31 then 2 ^ 32 - 2 ^ (32 - 4) else 0)
        (Nat.testBit 0x80000001 3) :=
  (asr_shift_regimes 0x80000001 (by decide) false).1 4 (by decide) (by decide)

/-- C9: the rendering rules for second-operand descriptors — a Register form
with immediate shift 0 renders as "Rn" for LSL, "Rn, RRX" for ROR and
"Rn, SHIFT #32" for the other kinds; any other Register form renders as
"Rn, SHIFT amount"; an Immediate form renders as "#v" with v the base
rotated right by the shift (base 0xFF with rotate field 1, i.e. shift 2,
rendering the rotated value 3221225535). -/
theorem alu_second_operand_display_rules :
    (∀ r : Nat, (AluSecondOperandInfo.Register (.Immediate 0) .Lsl r).display
      = "R" ++ toString r) ∧
    (∀ r : Nat, (AluSecondOperandInfo.Register (.Immediate 0) .Ror r).display
      = "R" ++ toString r ++ ", RRX") ∧
    (∀ (r : Nat) (k : ShiftKind), k ≠ .Lsl → k ≠ .Ror →
      (AluSecondOperandInfo.Register (.Immediate 0) k r).display
        = "R" ++ toString r ++ ", " ++ k.display ++ " #32") ∧
    (∀ (r v : Nat) (k : ShiftKind), v ≠ 0 →
      (AluSecondOperandInfo.Register (.Immediate v) k r).display
        = "R" ++ toString r ++ ", " ++ k.display ++ " #" ++ toString v) ∧
    (∀ (r s : Nat) (k : ShiftKind),
      (AluSecondOperandInfo.Register (.Register s) k r).display
        = "R" ++ toString r ++ ", " ++ k.display ++ " R" ++ toString s) ∧
    (∀ base sh : Nat, (AluSecondOperandInfo.Immediate base sh).display
      = "#" ++ toString (rotate_right32 base sh)) ∧
    ((AluSecondOperandInfo.Immediate 0xFF 2).display = "#3221225535") := by
  refine ⟨?_, ?_, ?_, ?_, ?_, ?_, ?_⟩
  · intro r
    simp [AluSecondOperandInfo.display]
  · intro r
    simp [AluSecondOperandInfo.display]
  · intro r k h1 h2
    simp [AluSecondOperandInfo.display, h1, h2]
  · intro r v k hv
    simp [AluSecondOperandInfo.display, ShiftOperator.display, hv,
      String.append_assoc, space_hash_append]
  · intro r s k
    simp [AluSecondOperandInfo.display, ShiftOperator.display,
      String.append_assoc, space_R_append]
  · intro base sh
    simp [AluSecondOperandInfo.display]
  · decide

/-- C9 witness: the zero-shift non-LSL/ROR rule applied at register 1 with
shift kind LSR. -/
theorem alu_second_operand_display_rules_witness :
    (AluSecondOperandInfo.Register (.Immediate 0) .Lsr 1).display
      = "R" ++ toString 1 ++ ", " ++ ShiftKind.Lsr.display ++ " #32" :=
  alu_second_operand_display_rules.2.2.1 1 .Lsr (by decide) (by decide)

end Clementine
